import Mathlib

/-!
Verification development for the `margo` agent package (`src/mg/db.go`).

The file shallowly embeds the two subsystems the claims speak about:

* the key/value store family (`KVStore`, `KVStores`, `KVMap`, `kvRef`)
  from the first part of `src/mg/db.go`;
* the protocol engine pieces (`NewAgent` codec resolution,
  `Agent.communicate` / `Agent.Run`, `Agent.shutdown`,
  `agentRes.finalize`) from the second part.

Go `interface{}` values are modelled as `Option V` (Go `nil` is `none`);
Go maps are modelled as association lists with unique keys; mutation is
modelled by explicit state passing.  Mutex-guarded critical sections are
modelled as atomic steps: a Go mutex serializes the statements between
`Lock` and `Unlock`, so any concurrent execution is observationally an
interleaving (a sequence) of those critical sections.
-/

set_option autoImplicit false

namespace Margo

variable {K V : Type} [DecidableEq K]

/-- An entry of `KVMap.vals`.  In the Go source the map value is an
`interface{}` that is either a plain stored value (possibly `nil`) or a
`*kvRef` lazy box whose `val` field is again a possibly-`nil` value
(`src/mg/db.go` lines 69-72).  The runtime type probe `v.(*kvRef)` becomes
a constructor match. -/
inductive KVEntry (V : Type) where
  | plain : Option V → KVEntry V
  | box : Option V → KVEntry V
  deriving DecidableEq, Repr

/-- The backing table of a (non-nil) `KVMap`: the Go map
`map[interface{}]interface{}` as an association list with unique keys.
The lazily-allocated `nil` map and the empty map are indistinguishable in
Go (reads of a `nil` map yield zero values), so both are `[]`. -/
structure KVMap (K V : Type) where
  vals : List (K × KVEntry V)
  deriving DecidableEq, Repr

/-- The fresh store: a zero-value `KVMap` (its `vals` map is `nil`). -/
def KVMap.fresh : KVMap K V := ⟨[]⟩

/-- `m.vals[k]` — Go map indexing.  A missing key yields the zero value
`nil`, which is indistinguishable from a stored plain `nil`, hence the
default `.plain none`. -/
def KVMap.entryOf (m : KVMap K V) (k : K) : KVEntry V :=
  match m.vals.find? (fun p => p.1 = k) with
  | some p => p.2
  | none => KVEntry.plain none

/-- `KVMap.put` (`src/mg/db.go` lines 95-100): `m.vals[k] = v`, allocating
the table on first write.  Map assignment replaces the entry for `k`. -/
def KVMap.putE (m : KVMap K V) (k : K) (e : KVEntry V) : KVMap K V :=
  ⟨(k, e) :: m.vals.filter (fun p => decide (p.1 ≠ k))⟩

/-- `delete(m.vals, k)` — Go map deletion (`KVMap.Del` body, line 164). -/
def KVMap.delE (m : KVMap K V) (k : K) : KVMap K V :=
  ⟨m.vals.filter (fun p => decide (p.1 ≠ k))⟩

/-- `KVMap.unref` (`src/mg/db.go` lines 143-153): a plain value passes
through unchanged; a `*kvRef` box is read under its own lock (the lock is
the atomicity of this step) and its `val` returned. -/
def KVMap.unrefE : KVEntry V → Option V
  | KVEntry.plain v => v
  | KVEntry.box v => v

/-- `KVMap.Put` (`src/mg/db.go` lines 84-93).  The `*KVMap` receiver may be
`nil` (`none`): then the call returns at once.  Otherwise the whole call
runs under `m.mu`, so it is one atomic step storing the plain value. -/
def KVMap.Put : Option (KVMap K V) → K → Option V → Option (KVMap K V)
  | none, _, _ => none
  | some m, k, v => some (m.putE k (KVEntry.plain v))

/-- `KVMap.Get` (`src/mg/db.go` lines 102-113): `nil` receiver returns
`nil`; otherwise read `m.vals[k]` under `m.mu` and unwrap via `unref`. -/
def KVMap.Get : Option (KVMap K V) → K → Option V
  | none, _ => none
  | some m, k => KVMap.unrefE (m.entryOf k)

/-- `KVMap.Del` (`src/mg/db.go` lines 155-165): `nil` receiver is a no-op;
otherwise delete the key under `m.mu`. -/
def KVMap.Del : Option (KVMap K V) → K → Option (KVMap K V)
  | none, _ => none
  | some m, k => some (m.delE k)

/-- `KVMap.Clear` (`src/mg/db.go` lines 167-177): `nil` receiver is a
no-op; otherwise `m.vals = nil`. -/
def KVMap.Clear : Option (KVMap K V) → Option (KVMap K V)
  | none => none
  | some _ => some (⟨[]⟩ : KVMap K V)

/-- `KVMap.Values` (`src/mg/db.go` lines 179-195): `nil` receiver returns
`nil`; otherwise a snapshot copy of all entries whose unwrapped value is
non-`nil`. -/
def KVMap.ValuesM : Option (KVMap K V) → List (K × V)
  | none => []
  | some m => m.vals.filterMap (fun p => (KVMap.unrefE p.2).map (fun v => (p.1, v)))

/-- `KVMap.ref` (`src/mg/db.go` lines 133-141), the fetch-or-create step of
`Ref` that runs under the map-wide lock `m.mu`: if `m.vals[k]` is already a
`*kvRef` return it, else wrap the current raw value (or `nil`) in a fresh
box and store the box.  Returns the box contents together with the updated
map. -/
def KVMap.refFetch (m : KVMap K V) (k : K) : Option V × KVMap K V :=
  match m.entryOf k with
  | KVEntry.box bv => (bv, m)
  | KVEntry.plain v => (v, m.putE k (KVEntry.box v))

/-- The critical section of `KVMap.Ref` run under the box's own lock
(`src/mg/db.go` lines 124-130): if `ref.val == nil`, call the initializer
and store its result; return `ref.val`.  `init` is the value the
initializer returns (`none` models an initializer returning `nil`).
Result: (returned value, box value afterwards, whether `new()` ran). -/
def refCrit (bv : Option V) (init : Option V) : Option V × Option V × Bool :=
  match bv with
  | some v => (some v, some v, false)
  | none => (init, init, true)

/-- `KVMap.Ref` (`src/mg/db.go` lines 115-131), sequential semantics: on a
`nil` receiver the initializer is called and its result returned with no
caching; otherwise fetch-or-create the box under `m.mu`, then run the box
critical section, the box mutation being visible in the map (in Go the box
is shared by pointer; here it is written back).  Returns
(returned value, store afterwards, whether the initializer ran). -/
def KVMap.RefM : Option (KVMap K V) → K → Option V → Option V × Option (KVMap K V) × Bool
  | none, _, init => (init, none, true)
  | some m, k, init =>
    let fetched := m.refFetch k
    let crit := refCrit fetched.1 init
    (crit.1, some (fetched.2.putE k (KVEntry.box crit.2.1)), crit.2.2)

/-- N concurrent `Ref(k, init)` callers all obtain the one shared box
(guaranteed by `m.mu`, see `refFetch`), and their box critical sections are
serialized by the box lock: any concurrent execution is a sequence of
`refCrit` steps on the box value.  `refCritRun` runs such a sequence, one
entry of `inits` per caller, and returns (each caller's result, final box
value, number of initializer invocations). -/
def refCritRun (bv : Option V) : List (Option V) → List (Option V) × Option V × Nat
  | [] => ([], bv, 0)
  | init :: rest =>
    let step := refCrit bv init
    let tail := refCritRun step.2.1 rest
    (step.1 :: tail.1, tail.2.1, tail.2.2 + (if step.2.2 then 1 else 0))

/-- The `KVStore` interface (`src/mg/db.go` lines 18-29) over a store state
type `σ`: dynamic dispatch becomes a record of the three operations,
mutation becomes state passing. -/
structure KVIface (σ K V : Type) where
  put : σ → K → Option V → σ
  get : σ → K → Option V
  del : σ → K → σ

/-- A `KVStores` list (`src/mg/db.go` line 34): each element is a `KVStore`
interface value, which may be `nil`.  A `nil` slice ranges as the empty
slice, so the absent list is `[]`. -/
def KVStores (σ : Type) : Type := List (Option σ)

/-- `KVStores.Put` (`src/mg/db.go` lines 37-44): call `.Put` on every
non-`nil` store in the list, skipping `nil` entries. -/
def KVStores.Put {σ : Type} (iface : KVIface σ K V) :
    KVStores σ → K → Option V → KVStores σ
  | [], _, _ => []
  | none :: rest, k, v => none :: KVStores.Put iface rest k v
  | some s :: rest, k, v => some (iface.put s k v) :: KVStores.Put iface rest k v

/-- `KVStores.Get` (`src/mg/db.go` lines 47-57): scan the list in order,
skip `nil` stores, return the first non-`nil` value found, else `nil`. -/
def KVStores.Get {σ : Type} (iface : KVIface σ K V) : KVStores σ → K → Option V
  | [], _ => none
  | none :: rest, k => KVStores.Get iface rest k
  | some s :: rest, k =>
    match iface.get s k with
    | some v => some v
    | none => KVStores.Get iface rest k

/-- `KVStores.Del` (`src/mg/db.go` lines 60-67): call `.Del` on every
non-`nil` store in the list. -/
def KVStores.Del {σ : Type} (iface : KVIface σ K V) : KVStores σ → K → KVStores σ
  | [], _ => []
  | none :: rest, k => none :: KVStores.Del iface rest k
  | some s :: rest, k => some (iface.del s k) :: KVStores.Del iface rest k

/-- The `KVStore` interface as implemented by a non-nil `*KVMap`
(`src/mg/db.go` line 10): each method takes its non-nil branch. -/
def kvmapIface : KVIface (KVMap K V) K V where
  put m k v := m.putE k (KVEntry.plain v)
  get m k := KVMap.unrefE (m.entryOf k)
  del m k := m.delE k

/-! ### Codec registry and `NewAgent` (`src/mg/db.go` lines 212-248, 467-523) -/

/-- The serialization strategies held in `codecHandles`: `codec.CborHandle`,
`codec.JsonHandle` and `codec.MsgpackHandle`.  Their encoding behaviour is
outside the claims; only their identity matters. -/
inductive CodecHandle where
  | cbor
  | json
  | msgpack
  deriving DecidableEq, Repr

/-- `DefaultCodec` (`src/mg/db.go` line 214). -/
def DefaultCodec : String := "json"

/-- The three explicit entries of the `codecHandles` map literal
(`src/mg/db.go` lines 218-225), before `m[""] = m[DefaultCodec]`. -/
def codecHandlesBase : List (String × CodecHandle) :=
  [("cbor", CodecHandle.cbor), ("json", CodecHandle.json),
   ("msgpack", CodecHandle.msgpack)]

/-- `codecHandles` (`src/mg/db.go` lines 217-228) as a lookup: the map
literal plus the extra entry `m[""] = m[DefaultCodec]`.  A missing key
yields the zero value `nil` (`none`). -/
def codecHandles (name : String) : Option CodecHandle :=
  if name = "" then (codecHandlesBase.find? (fun p => p.1 = DefaultCodec)).map Prod.snd
  else (codecHandlesBase.find? (fun p => p.1 = name)).map Prod.snd

/-- The single quote character, used in the `NewAgent` error text. -/
def squote : String := String.singleton (Char.ofNat 39)

/-- Lexicographic comparison of character lists: Go compares strings
byte-wise, which on these ASCII codec names is the character-wise
lexicographic order. -/
def charListLe : List Char → List Char → Bool
  | [], _ => true
  | _ :: _, [] => false
  | a :: as, b :: bs =>
    if a < b then true else if b < a then false else charListLe as bs

/-- Go string comparison `a <= b`. -/
def strLe (a b : String) : Bool := charListLe a.data b.data

/-- An insertion step for `sort.Strings`. -/
def insertStr (s : String) : List String → List String
  | [] => [s]
  | t :: rest => if strLe s t then s :: t :: rest else t :: insertStr s rest

/-- `sort.Strings`: sort a list of strings in increasing order. -/
def sortStrings : List String → List String
  | [] => []
  | s :: rest => insertStr s (sortStrings rest)

/-- All keys of the `codecHandles` map, the `""` alias included. -/
def codecHandleKeys : List String := codecHandlesBase.map Prod.fst ++ [""]

/-- `CodecNames` (`src/mg/db.go` lines 231-240): the non-empty keys of
`codecHandles`, sorted.  Go map iteration order is unspecified, but the
result is sorted, so any iteration order yields the same list up to the
sort; the insertion order stands in for it here. -/
def CodecNames : List String :=
  sortStrings (codecHandleKeys.filter (fun k => decide (k ≠ "")))

/-- `strings.Join`. -/
def strJoin (sep : String) : List String → String
  | [] => ""
  | [s] => s
  | s :: rest => s ++ sep ++ strJoin sep rest

/-- `CodecNamesStr` (`src/mg/db.go` lines 243-247):
`strings.Join(CodecNames[:i], ", ") + " or " + CodecNames[i]` with
`i = len(CodecNames) - 1`. -/
def CodecNamesStr : String :=
  strJoin ", " (CodecNames.take (CodecNames.length - 1))
    ++ " or " ++ List.getD CodecNames (CodecNames.length - 1) ""

/-- The configuration fields of `AgentConfig` (`src/mg/db.go` lines
250-271) that the claims touch; the streams are external resources. -/
structure AgentConfigM where
  agentName : String
  codec : String
  deriving DecidableEq, Repr

/-- The observable construction result of an `Agent`: its name and the
resolved codec handle.  `NewAgent` always returns a non-nil agent. -/
structure AgentModel where
  name : String
  handle : CodecHandle
  deriving DecidableEq, Repr

/-- The error text `fmt.Errorf("Invalid codec '%s'. Expected %s", cfg.Codec,
CodecNamesStr)` (`src/mg/db.go` line 515). -/
def invalidCodecErr (name : String) : String :=
  "Invalid codec " ++ squote ++ name ++ squote ++ ". Expected " ++ CodecNamesStr

/-- `NewAgent` (`src/mg/db.go` lines 467-523), projected onto codec
resolution: `ag.handle = codecHandles[cfg.Codec]`; if the handle is `nil`,
set `err` and fall back to `codecHandles[DefaultCodec]`.  The returned
agent is always initialised and usable.  (By computation
`codecHandles DefaultCodec = some CodecHandle.json`, so the `getD` default
is never taken.) -/
def NewAgentM (cfg : AgentConfigM) : AgentModel × Option String :=
  match codecHandles cfg.codec with
  | some h => ({ name := cfg.agentName, handle := h }, none)
  | none =>
    ({ name := cfg.agentName,
       handle := (codecHandles DefaultCodec).getD CodecHandle.json },
     some (invalidCodecErr cfg.codec))

/-! ### Decode loop and shutdown (`src/mg/db.go` lines 377-458) -/

/-- A decode failure: `io.EOF` exactly (the loop tests `err == io.EOF`), or
any other decode error with its message. -/
inductive DecErr where
  | eof
  | fail : String → DecErr
  deriving DecidableEq, Repr

/-- An incoming request as decoded (`agentReq`, `src/mg/db.go` lines
278-282); only its being handled matters to the claims. -/
structure AgentReqM where
  cookie : String
  deriving DecidableEq, Repr

/-- One `ag.dec.Decode(rq)` outcome. -/
abbrev DecodeOutcome : Type := Except DecErr AgentReqM

/-- `Agent.communicate` (`src/mg/db.go` lines 383-399) over the stream of
decode outcomes: decode, on `io.EOF` return `nil`, on any other error
return `fmt.Errorf("ipc.decode: %s", err)`, otherwise handle the request
and loop.  Result: `none` when the loop never returns (the stream never
yields an error: the Go loop stays blocked in `Decode`), otherwise
`some (returned error, requests handled before returning)`. -/
def communicate : List DecodeOutcome → Option (Option String × List AgentReqM)
  | [] => none
  | Except.error DecErr.eof :: _ => some (none, [])
  | Except.error (DecErr.fail msg) :: _ =>
    some (some ("ipc.decode: " ++ msg), [])
  | Except.ok rq :: rest =>
    (communicate rest).map (fun r => (r.1, rq :: r.2))

/-- The five shutdown steps of `Agent.shutdown` (`src/mg/db.go` lines
436-458 and its comment). -/
inductive SDStep where
  | closeStdin
  | wgWait
  | dispatchShutdown
  | closeStdout
  | closeDone
  deriving DecidableEq, Repr

/-- The shutdown state: the one-shot flag `ag.sd.closed`, guarded by
`ag.sd.mu` (so each `shutdown` call is one atomic step). -/
structure SDState where
  closed : Bool
  deriving DecidableEq, Repr

/-- The deferred calls of `Agent.shutdown` in declaration order
(`src/mg/db.go` lines 453-457): `close(sd.done)`, `ag.stdout.Close()`,
`ag.Store.dispatch(Shutdown{})`, `ag.wg.Wait()`, `ag.stdin.Close()`.
Go runs defers in LIFO order, and runs every deferred call even when an
earlier one fails or panics. -/
def sdDeferred : List SDStep :=
  [SDStep.closeDone, SDStep.closeStdout, SDStep.dispatchShutdown,
   SDStep.wgWait, SDStep.closeStdin]

/-- `Agent.shutdown` (`src/mg/db.go` lines 442-458): under `sd.mu`, return
at once if `sd.closed` is already set, else set it and execute the five
deferred steps (LIFO, hence `sdDeferred.reverse`).  Returns the new state
and the trace of steps executed by this call. -/
def shutdown (s : SDState) : SDState × List SDStep :=
  if s.closed then (s, [])
  else ({ closed := true }, sdDeferred.reverse)

/-- `shutdown` with per-step outcomes: `fail st = true` models the step's
resource erroring.  Defers run regardless of earlier failures, so the
emitted trace does not depend on `fail`. -/
def shutdownWithFailures (s : SDState) (fail : SDStep → Bool) :
    SDState × List (SDStep × Bool) :=
  if s.closed then (s, [])
  else ({ closed := true }, sdDeferred.reverse.map (fun st => (st, fail st)))

/-- `n` successive triggerings of `shutdown` (repeated or concurrent
triggers are serialized by `sd.mu`), with the concatenated step trace. -/
def shutdownRun : SDState → Nat → SDState × List SDStep
  | s, 0 => (s, [])
  | s, n + 1 =>
    let first := shutdown s
    let rest := shutdownRun first.1 n
    (rest.1, first.2 ++ rest.2)

/-- `Agent.Run` (`src/mg/db.go` lines 378-381): `defer ag.shutdown()` then
`return ag.communicate()`.  When `communicate` returns, `shutdown` runs;
result: (Run's returned error, handled requests, shutdown state after,
shutdown steps executed). -/
def RunM (stream : List DecodeOutcome) (sd : SDState) :
    Option (Option String × List AgentReqM × SDState × List SDStep) :=
  (communicate stream).map (fun r =>
    let s := shutdown sd
    (r.1, r.2, s.1, s.2))

/-! ### Response projection (`agentRes.finalize`, `src/mg/db.go` lines 292-349) -/

/-- Modelled from the spec: the `View` payload of a `State` is defined
outside `src/` (only `outSt.View.changed` is read here); per the spec the
`changed` counter is zero exactly when the view has not changed since the
previous send, and the payload is the client-visible content. -/
structure ViewM where
  payload : String
  changed : Nat
  deriving DecidableEq, Repr

/-- A profile entry (`ReducerProfile`): only the `Action` field is
transformed by `finalize`.  `actionType` is the runtime type identity
`reflect.TypeOf(in.Action)` rendered as a string, `none` when the action
is `nil` (an internal render step).  The `Start`/`End` timestamp formatting
(`time.Format`) is not modelled; no claim concerns it. -/
structure ReducerProfileM where
  actionType : Option String
  deriving DecidableEq, Repr

/-- An `EditorConfig` value: only its `EditorConfig()` projection is
observable in `finalize`. -/
structure EditorConfigM where
  editorConfig : String
  deriving DecidableEq, Repr

/-- The fields of `State` that `agentRes.finalize` reads (`src/mg/db.go`
lines 306-347).  `view` is a non-nil pointer in every state `finalize`
receives (the source dereferences `outSt.View.changed` unconditionally). -/
structure StateM where
  errors : List String
  view : ViewM
  config : Option EditorConfigM
  clientActions : List String
  profiles : List ReducerProfileM
  deriving DecidableEq, Repr

/-- `agentRes` (`src/mg/db.go` lines 292-296). -/
structure AgentResM where
  cookie : String
  error : String
  state : StateM
  deriving DecidableEq, Repr

/-- A projected profile entry (`_ReducerProfile`): the `Action` display
string. -/
structure ProfileOut where
  action : String
  deriving DecidableEq, Repr

/-- The wire-shaped state of the outgoing response: `view` is `none` when
absent from the encoded state. -/
structure StateOut where
  errors : List String
  view : Option ViewM
  config : Option String
  clientActions : List String
  profiles : List ProfileOut
  deriving DecidableEq, Repr

/-- The outgoing response shape produced by `finalize`. -/
structure AgentResOut where
  cookie : String
  error : String
  state : StateOut
  deriving DecidableEq, Repr

/-- `agentRes.finalize` (`src/mg/db.go` lines 298-349): copy the response
and state; render each profile's action type (or `"mg.Render"` when the
action is `nil`); default `Error` to the accumulated error strings joined
by newline; drop the view when `View.changed == 0`; project the editor
config when present. -/
def agentResFinalize (rs : AgentResM) : AgentResOut :=
  { cookie := rs.cookie
    error :=
      if rs.error = "" then strJoin "\n" rs.state.errors else rs.error
    state :=
      { errors := rs.state.errors
        view := if rs.state.view.changed = 0 then none else some rs.state.view
        config := rs.state.config.map EditorConfigM.editorConfig
        clientActions := rs.state.clientActions
        profiles :=
          rs.state.profiles.map (fun p =>
            { action := p.actionType.getD "mg.Render" }) } }

/-- The first non-`nil` value in a list of per-store lookup results:
the specification of in-order scanning for `KVStores.Get`. -/
def firstSome {V : Type} : List (Option V) → Option V
  | [] => none
  | some v :: _ => some v
  | none :: rest => firstSome rest

/-- The first decode failure of a stream of decode outcomes. -/
def firstErr : List DecodeOutcome → Option DecErr
  | [] => none
  | Except.error e :: _ => some e
  | Except.ok _ :: rest => firstErr rest

/-- The documented shutdown order (`src/mg/db.go` lines 436-441): stop
incoming requests, wait for all requests to complete, tell reducers the
process is shutting down, stop outgoing responses, tell the world it is
done. -/
def sdOrder : List SDStep :=
  [SDStep.closeStdin, SDStep.wgWait, SDStep.dispatchShutdown,
   SDStep.closeStdout, SDStep.closeDone]

/-! ### Helper lemmas -/

theorem entryOf_putE (m : KVMap K V) (k : K) (e : KVEntry V) :
    (m.putE k e).entryOf k = e := by
  simp [KVMap.putE, KVMap.entryOf]

theorem find?_filter_ne (l : List (K × KVEntry V)) (k : K) :
    (l.filter (fun p => decide (p.1 ≠ k))).find? (fun p => p.1 = k) = none := by
  induction l with
  | nil => rfl
  | cons a l ih =>
    by_cases h : a.1 = k
    · simp [List.filter, h, ih]
    · simp [List.filter, h, ih]

theorem entryOf_delE (m : KVMap K V) (k : K) :
    (m.delE k).entryOf k = KVEntry.plain none := by
  unfold KVMap.entryOf KVMap.delE
  rw [find?_filter_ne]

theorem refCritRun_materialized (v0 : V) (inits : List (Option V)) :
    refCritRun (some v0) inits =
      (List.replicate inits.length (some v0), some v0, 0) := by
  induction inits with
  | nil => rfl
  | cons i rest ih => simp [refCritRun, refCrit, ih, List.replicate]

theorem kvstoresGet_firstSome {σ : Type} (iface : KVIface σ K V)
    (l : KVStores σ) (k : K) :
    KVStores.Get iface l k =
      firstSome (l.map (fun s => s.bind (fun st => iface.get st k))) := by
  induction l with
  | nil => rfl
  | cons s rest ih =>
    cases s with
    | none => simpa [KVStores.Get, firstSome] using ih
    | some st =>
      cases h : iface.get st k with
      | none => simpa [KVStores.Get, h, firstSome] using ih
      | some v => simp [KVStores.Get, h, firstSome]

theorem kvstoresPut_map {σ : Type} (iface : KVIface σ K V)
    (l : KVStores σ) (k : K) (v : Option V) :
    KVStores.Put iface l k v =
      l.map (Option.map (fun st => iface.put st k v)) := by
  induction l with
  | nil => rfl
  | cons s rest ih => cases s <;> simp [KVStores.Put, ih]

theorem kvstoresDel_map {σ : Type} (iface : KVIface σ K V)
    (l : KVStores σ) (k : K) :
    KVStores.Del iface l k = l.map (Option.map (fun st => iface.del st k)) := by
  induction l with
  | nil => rfl
  | cons s rest ih => cases s <;> simp [KVStores.Del, ih]

/-! ### The claims -/

/-- Claim C3: on a non-nil `KVMap`, `Get(k)` after `Put(k, v)` returns `v`
(`Put` replaces any prior value, whatever the prior state `m`); `Get(k)`
after `Del(k)` returns `nil`; `Get(k)` on a fresh store where `k` was never
stored returns `nil`. -/
theorem kvmap_put_get_del_contract (m : KVMap K V) (k : K) (v : V) :
    KVMap.Get (KVMap.Put (some m) k (some v)) k = some v ∧
    KVMap.Get (KVMap.Del (some m) k) k = none ∧
    KVMap.Get (some (KVMap.fresh : KVMap K V)) k = none := by
  refine ⟨?_, ?_, rfl⟩
  · simp [KVMap.Put, KVMap.Get, entryOf_putE, KVMap.unrefE]
  · simp [KVMap.Del, KVMap.Get, entryOf_delE, KVMap.unrefE]

/-- Claim C4: every `KVMap` and `KVStores` operation on a `nil` receiver
completes as a no-op on an empty store — `Put`/`Del`/`Clear` change
nothing, `Get` returns `nil`, `Values` returns nothing — except `Ref`,
which still calls the initializer and returns its result; `KVStores`
operations on a `nil` (empty) list likewise do nothing. -/
theorem nil_receiver_noops {σ : Type} (iface : KVIface σ K V) (k : K)
    (v init : Option V) :
    KVMap.Put (none : Option (KVMap K V)) k v = none ∧
    KVMap.Get (none : Option (KVMap K V)) k = none ∧
    KVMap.Del (none : Option (KVMap K V)) k = none ∧
    KVMap.Clear (none : Option (KVMap K V)) = none ∧
    KVMap.ValuesM (none : Option (KVMap K V)) = [] ∧
    KVMap.RefM (none : Option (KVMap K V)) k init = (init, none, true) ∧
    KVStores.Put iface ([] : KVStores σ) k v = [] ∧
    KVStores.Get iface ([] : KVStores σ) k = none ∧
    KVStores.Del iface ([] : KVStores σ) k = [] :=
  ⟨rfl, rfl, rfl, rfl, rfl, rfl, rfl, rfl, rfl⟩

/-- Claim C2: on a `KVStores` list, `Put` writes to every non-nil store and
skips nil entries; `Get` scans in order and returns the first non-nil value
found (with `[A, B]` both holding values under `k`, A's value is returned);
`Del` removes the key from every non-nil store; a nil (empty) list behaves
as an empty store. -/
theorem kvstores_layering {σ : Type} (iface : KVIface σ K V)
    (l : KVStores σ) (k : K) (v : Option V) (A B : σ) (rest : KVStores σ)
    (va : V) :
    KVStores.Put iface l k v =
      l.map (Option.map (fun st => iface.put st k v)) ∧
    KVStores.Get iface l k =
      firstSome (l.map (fun s => s.bind (fun st => iface.get st k))) ∧
    (iface.get A k = some va →
      KVStores.Get iface (some A :: some B :: rest) k = some va) ∧
    KVStores.Del iface l k =
      l.map (Option.map (fun st => iface.del st k)) ∧
    KVStores.Get iface ([] : KVStores σ) k = none ∧
    KVStores.Put iface ([] : KVStores σ) k v = [] ∧
    KVStores.Del iface ([] : KVStores σ) k = [] := by
  refine ⟨kvstoresPut_map iface l k v, kvstoresGet_firstSome iface l k,
    ?_, kvstoresDel_map iface l k, rfl, rfl, rfl⟩
  intro h
  simp [KVStores.Get, h]

/-- Claim C2, witness: with two map-backed stores both holding values under
key `1` (A holds `10`, B holds `20`), `Get` returns A's value and `Del`
empties both. -/
theorem kvstores_layering_witness :
    (kvmapIface : KVIface (KVMap Nat Nat) Nat Nat).get
        ⟨[(1, KVEntry.plain (some 10))]⟩ 1 = some 10 ∧
    KVStores.Get (kvmapIface : KVIface (KVMap Nat Nat) Nat Nat)
        [some ⟨[(1, KVEntry.plain (some 10))]⟩,
         some ⟨[(1, KVEntry.plain (some 20))]⟩] 1 = some 10 :=
  ⟨by decide,
   (kvstores_layering (kvmapIface : KVIface (KVMap Nat Nat) Nat Nat)
      [] 1 none ⟨[(1, KVEntry.plain (some 10))]⟩
      ⟨[(1, KVEntry.plain (some 20))]⟩ [] 10).2.2.1 (by decide)⟩

/-- Claim C10: storing `nil` is indistinguishable from absence — after
`Put(k, nil)` on any non-nil `KVMap`, `Get(k)` returns `nil` exactly as for
a never-stored key on a fresh store; and in a `KVStores` list, a store
holding `nil` under `k` is passed over by `Get(k)`, which continues with
the later stores. -/
theorem nil_value_is_absence {σ : Type} (iface : KVIface σ K V)
    (m : KVMap K V) (k : K) (A : σ) (rest : KVStores σ) :
    KVMap.Get (KVMap.Put (some m) k none) k = none ∧
    KVMap.Get (some (KVMap.fresh : KVMap K V)) k = none ∧
    (iface.get A k = none →
      KVStores.Get iface (some A :: rest) k = KVStores.Get iface rest k) := by
  refine ⟨?_, rfl, ?_⟩
  · simp [KVMap.Put, KVMap.Get, entryOf_putE, KVMap.unrefE]
  · intro h
    simp [KVStores.Get, h]

/-- Claim C10, witness: on a store where `1` maps to a stored `nil` and a
second store holds `42` under `1`, the layered `Get` passes the first store
over and returns `42`. -/
theorem nil_value_is_absence_witness :
    (kvmapIface : KVIface (KVMap Nat Nat) Nat Nat).get
        ⟨[(1, KVEntry.plain none)]⟩ 1 = none ∧
    KVStores.Get (kvmapIface : KVIface (KVMap Nat Nat) Nat Nat)
        (some ⟨[(1, KVEntry.plain none)]⟩ ::
          [some ⟨[(1, KVEntry.plain (some 42))]⟩]) 1 =
      KVStores.Get (kvmapIface : KVIface (KVMap Nat Nat) Nat Nat)
        [some ⟨[(1, KVEntry.plain (some 42))]⟩] 1 :=
  ⟨by decide,
   (nil_value_is_absence (kvmapIface : KVIface (KVMap Nat Nat) Nat Nat)
      KVMap.fresh 1 ⟨[(1, KVEntry.plain none)]⟩
      [some ⟨[(1, KVEntry.plain (some 42))]⟩]).2.2 (by decide)⟩

/-- Claim C9: when the initializer passed to `Ref(k, init)` returns `nil`,
the lazy box for `k` stays unmaterialized — the call returns `nil` and the
entry is a box with a `nil` value — and a subsequent `Ref(k, init2)` on the
same key invokes `init2` again (and caches its non-nil result); so the
at-most-one-initializer guarantee applies only to initializers returning a
non-nil value. -/
theorem ref_nil_initializer_not_cached (k : K) (v : V) :
    KVMap.RefM (some (KVMap.fresh : KVMap K V)) k none =
      (none, some (KVMap.fresh.putE k (KVEntry.box none)), true) ∧
    (KVMap.fresh.putE k (KVEntry.box none) : KVMap K V).entryOf k =
      KVEntry.box none ∧
    (∀ m : KVMap K V, m.entryOf k = KVEntry.box none →
      KVMap.RefM (some m) k (some v) =
        (some v, some (m.putE k (KVEntry.box (some v))), true)) := by
  refine ⟨?_, entryOf_putE _ _ _, ?_⟩
  · simp [KVMap.RefM, KVMap.refFetch, KVMap.entryOf, KVMap.fresh, refCrit,
      KVMap.putE]
  · intro m h
    simp [KVMap.RefM, KVMap.refFetch, h, refCrit]

/-- Claim C9, witness: on a fresh store over `Nat` keys and values, a first
`Ref 1` with a nil-returning initializer leaves the box unmaterialized, and
the next `Ref 1` with an initializer returning `5` runs it again. -/
theorem ref_nil_initializer_not_cached_witness :
    ((KVMap.fresh : KVMap Nat Nat).putE 1 (KVEntry.box none)).entryOf 1 =
      KVEntry.box none ∧
    KVMap.RefM (some ((KVMap.fresh : KVMap Nat Nat).putE 1 (KVEntry.box none)))
        1 (some 5) =
      (some 5,
       some (((KVMap.fresh : KVMap Nat Nat).putE 1 (KVEntry.box none)).putE 1
          (KVEntry.box (some 5))), true) :=
  ⟨by decide,
   (ref_nil_initializer_not_cached (K := Nat) (V := Nat) 1 5).2.2
     ((KVMap.fresh : KVMap Nat Nat).putE 1 (KVEntry.box none)) (by decide)⟩

/-- Claim C1: `m.mu` makes all concurrent `Ref(k, init)` callers share one
lazy box (once the entry for `k` is a box, `refFetch` returns it and leaves
the store unchanged; on a fresh store the first fetch creates the box with
a `nil` value), and the box lock serializes their critical sections, so a
concurrent execution of N callers is a sequence of N `refCrit` steps: with
every caller's initializer returning the (non-nil) value `v0`, the
initializer runs exactly once for N ≥ 1 and every caller gets the identical
cached value; a box that is already materialized is never re-materialized
and never re-runs the initializer. -/
theorem ref_initializer_once (N : Nat) (hN : 1 ≤ N) (v0 : V)
    (init bv : Option V) (m : KVMap K V) (k : K) :
    (refCritRun none (List.replicate N (some v0))).1 =
      List.replicate N (some v0) ∧
    (refCritRun none (List.replicate N (some v0))).2.2 = 1 ∧
    (refCritRun none (List.replicate N (some v0))).2.1 = some v0 ∧
    (∀ w : V, refCrit (some w) init = (some w, some w, false)) ∧
    (m.entryOf k = KVEntry.box bv → m.refFetch k = (bv, m)) ∧
    (KVMap.fresh : KVMap K V).refFetch k =
      (none, KVMap.fresh.putE k (KVEntry.box none)) := by
  obtain ⟨n, rfl⟩ : ∃ n, N = n + 1 :=
    ⟨N - 1, (Nat.succ_pred_eq_of_pos hN).symm⟩
  refine ⟨?_, ?_, ?_, fun w => rfl, ?_, ?_⟩
  · simp [List.replicate, refCritRun, refCrit, refCritRun_materialized]
  · simp [List.replicate, refCritRun, refCrit, refCritRun_materialized]
  · simp [List.replicate, refCritRun, refCrit, refCritRun_materialized]
  · intro h
    simp [KVMap.refFetch, h]
  · simp [KVMap.refFetch, KVMap.entryOf, KVMap.fresh]

/-- Claim C1, witness: three callers on a fresh box, each initializer
returning `7`: all three get `7`, the initializer runs once, and a store
whose entry for `1` is already a box is fetched unchanged. -/
theorem ref_initializer_once_witness :
    1 ≤ 3 ∧
    (refCritRun (none : Option Nat) (List.replicate 3 (some 7))).1 =
      List.replicate 3 (some 7) ∧
    (refCritRun (none : Option Nat) (List.replicate 3 (some 7))).2.2 = 1 ∧
    ((⟨[(1, KVEntry.box (some 7))]⟩ : KVMap Nat Nat).entryOf 1 =
        KVEntry.box (some 7) →
      (⟨[(1, KVEntry.box (some 7))]⟩ : KVMap Nat Nat).refFetch 1 =
        (some 7, ⟨[(1, KVEntry.box (some 7))]⟩)) :=
  ⟨by decide,
   (ref_initializer_once 3 (by decide) 7 none (some 7)
      (⟨[(1, KVEntry.box (some 7))]⟩ : KVMap Nat Nat) 1).1,
   (ref_initializer_once 3 (by decide) 7 none (some 7)
      (⟨[(1, KVEntry.box (some 7))]⟩ : KVMap Nat Nat) 1).2.1,
   (ref_initializer_once 3 (by decide) 7 none (some 7)
      (⟨[(1, KVEntry.box (some 7))]⟩ : KVMap Nat Nat) 1).2.2.2.2.1⟩

theorem communicate_ok_front (pre : List AgentReqM)
    (rest : List DecodeOutcome) :
    communicate (pre.map Except.ok ++ rest) =
      (communicate rest).map (fun r => (r.1, pre ++ r.2)) := by
  induction pre with
  | nil =>
    cases h : communicate rest <;> simp [h]
  | cons a pre ih =>
    cases h : communicate rest <;> simp [communicate, ih, h]

theorem shutdownRun_closed (n : Nat) :
    shutdownRun ⟨true⟩ n = (⟨true⟩, []) := by
  induction n with
  | zero => rfl
  | succ n ih => simp [shutdownRun, shutdown, ih]

/-- Claim C5: `NewAgent` with a codec name naming no recognized format
returns a usable agent on the default (`json`) codec together with an
error whose text enumerates exactly the valid codec names joined as
`a, b or c` (`"cbor, json or msgpack"`); a recognized name — the empty
string meaning the default included — yields no error. -/
theorem newAgent_codec_resolution (agName name : String) :
    (codecHandles name = none →
      NewAgentM { agentName := agName, codec := name } =
        ({ name := agName, handle := CodecHandle.json },
         some (invalidCodecErr name))) ∧
    (codecHandles name ≠ none →
      (NewAgentM { agentName := agName, codec := name }).2 = none) ∧
    codecHandles "" = some CodecHandle.json ∧
    codecHandles DefaultCodec = some CodecHandle.json ∧
    CodecNames = ["cbor", "json", "msgpack"] ∧
    CodecNamesStr = "cbor, json or msgpack" ∧
    invalidCodecErr name =
      "Invalid codec " ++ squote ++ name ++ squote ++ ". Expected "
        ++ CodecNamesStr := by
  refine ⟨?_, ?_, by decide, by decide, by decide, by decide, rfl⟩
  · intro h
    simp [NewAgentM, h]
    decide
  · intro h
    cases hc : codecHandles name with
    | none => exact absurd hc h
    | some hdl => simp [NewAgentM, hc]

/-- Claim C5, witness: the unrecognized name `"yaml"` yields the default
handle and the enumerating error; the recognized name `"cbor"` yields no
error. -/
theorem newAgent_codec_resolution_witness :
    codecHandles "yaml" = none ∧
    NewAgentM { agentName := "margo", codec := "yaml" } =
      ({ name := "margo", handle := CodecHandle.json },
       some (invalidCodecErr "yaml")) ∧
    codecHandles "cbor" ≠ none ∧
    (NewAgentM { agentName := "margo", codec := "cbor" }).2 = none :=
  ⟨by decide, (newAgent_codec_resolution "margo" "yaml").1 (by decide),
   by decide, (newAgent_codec_resolution "margo" "cbor").2.1 (by decide)⟩

/-- Claim C6: the decode loop returns `nil` exactly when decoding fails
with end-of-stream (`io.EOF`); any other decode failure aborts the loop —
requests after it are never handled — and is surfaced from `Run` as the
wrapped error `"ipc.decode: <err>"`, with the shutdown steps still
executed (`Run` defers `shutdown`, which also runs in the clean
end-of-stream case). -/
theorem decode_loop_termination (pre : List AgentReqM) (msg : String)
    (tail : List DecodeOutcome) :
    communicate (pre.map Except.ok ++ Except.error DecErr.eof :: tail) =
      some (none, pre) ∧
    communicate (pre.map Except.ok ++ Except.error (DecErr.fail msg) :: tail) =
      some (some ("ipc.decode: " ++ msg), pre) ∧
    (∀ (stream : List DecodeOutcome) (r : Option String × List AgentReqM),
      communicate stream = some r →
        (r.1 = none ↔ firstErr stream = some DecErr.eof)) ∧
    RunM (pre.map Except.ok ++ Except.error DecErr.eof :: tail) ⟨false⟩ =
      some (none, pre, ⟨true⟩, sdOrder) ∧
    RunM (pre.map Except.ok ++ Except.error (DecErr.fail msg) :: tail)
        ⟨false⟩ =
      some (some ("ipc.decode: " ++ msg), pre, ⟨true⟩, sdOrder) := by
  have heof :
      communicate (pre.map Except.ok ++ Except.error DecErr.eof :: tail) =
        some (none, pre) := by
    rw [communicate_ok_front]
    simp [communicate]
  have hfail :
      communicate
          (pre.map Except.ok ++ Except.error (DecErr.fail msg) :: tail) =
        some (some ("ipc.decode: " ++ msg), pre) := by
    rw [communicate_ok_front]
    simp [communicate]
  refine ⟨heof, hfail, ?_, ?_, ?_⟩
  · intro stream
    induction stream with
    | nil => intro r h; exact absurd h (by simp [communicate])
    | cons o rest ih =>
      intro r h
      match o with
      | Except.error DecErr.eof =>
        simp [communicate] at h
        simp [← h, firstErr]
      | Except.error (DecErr.fail m) =>
        simp [communicate] at h
        simp [← h, firstErr]
      | Except.ok rq =>
        simp only [communicate] at h
        cases hc : communicate rest with
        | none =>
          rw [hc] at h
          cases h
        | some r1 =>
          rw [hc] at h
          have hr : (r1.1, rq :: r1.2) = r := by simpa using h
          rw [← hr]
          simpa [firstErr] using ih r1 hc
  · simp [RunM, heof, shutdown, sdDeferred, sdOrder]
  · simp [RunM, hfail, shutdown, sdDeferred, sdOrder]

/-- Claim C6, witness: one request decoded then `io.EOF` terminates cleanly
with shutdown run; one request then a decode failure `"boom"` surfaces
`"ipc.decode: boom"` from `Run` with shutdown still run. -/
theorem decode_loop_termination_witness :
    RunM [Except.ok ⟨"c1"⟩, Except.error DecErr.eof] ⟨false⟩ =
      some (none, [⟨"c1"⟩], ⟨true⟩, sdOrder) ∧
    RunM [Except.ok ⟨"c1"⟩, Except.error (DecErr.fail "boom")] ⟨false⟩ =
      some (some ("ipc.decode: " ++ "boom"), [⟨"c1"⟩], ⟨true⟩, sdOrder) :=
  ⟨(decode_loop_termination [⟨"c1"⟩] "boom" []).2.2.2.1,
   (decode_loop_termination [⟨"c1"⟩] "boom" []).2.2.2.2⟩

/-- Claim C7: under repeated (or, `sd.mu` serializing them, concurrent)
triggering, shutdown executes its five steps exactly once and in the
documented order — close the input stream, wait for the pending-work
counter to drain, notify the state machine of shutdown, close the output
stream, signal the completion channel — a second trigger doing nothing;
and every step is attempted regardless of earlier step failures. -/
theorem shutdown_once_in_order (n : Nat) (hn : 1 ≤ n)
    (fail : SDStep → Bool) :
    shutdown ⟨false⟩ = (⟨true⟩, sdOrder) ∧
    shutdown ⟨true⟩ = (⟨true⟩, []) ∧
    (shutdownRun ⟨false⟩ n).2 = sdOrder ∧
    sdOrder =
      [SDStep.closeStdin, SDStep.wgWait, SDStep.dispatchShutdown,
       SDStep.closeStdout, SDStep.closeDone] ∧
    (shutdownWithFailures ⟨false⟩ fail).2.map Prod.fst = sdOrder := by
  obtain ⟨m, rfl⟩ : ∃ m, n = m + 1 :=
    ⟨n - 1, (Nat.succ_pred_eq_of_pos hn).symm⟩
  refine ⟨rfl, rfl, ?_, rfl, rfl⟩
  simp [shutdownRun, shutdown, shutdownRun_closed, sdDeferred, sdOrder]

/-- Claim C7, witness: two successive triggers yield the five documented
steps exactly once. -/
theorem shutdown_once_in_order_witness :
    1 ≤ 2 ∧ (shutdownRun ⟨false⟩ 2).2 = sdOrder :=
  ⟨by decide,
   (shutdown_once_in_order 2 (by decide) (fun _ => false)).2.2.1⟩

/-- Claim C8: in the outgoing response projection built by the send path,
the view payload is present exactly when it changed since the previous send
(its `changed` counter is non-zero, per the spec's reading of the counter),
and absent from the encoded state otherwise. -/
theorem view_sent_only_when_changed (rs : AgentResM) :
    ((agentResFinalize rs).state.view = none ↔ rs.state.view.changed = 0) ∧
    (rs.state.view.changed ≠ 0 →
      (agentResFinalize rs).state.view = some rs.state.view) := by
  constructor
  · by_cases h : rs.state.view.changed = 0 <;> simp [agentResFinalize, h]
  · intro h
    simp [agentResFinalize, h]

/-- Claim C8, witness: a view with `changed = 1` is included in the
projection; a view with `changed = 0` is dropped. -/
theorem view_sent_only_when_changed_witness :
    (agentResFinalize
        { cookie := "c", error := "",
          state :=
            { errors := [], view := ⟨"v", 1⟩, config := none,
              clientActions := [], profiles := [] } }).state.view =
      some ⟨"v", 1⟩ ∧
    (agentResFinalize
        { cookie := "c", error := "",
          state :=
            { errors := [], view := ⟨"v", 0⟩, config := none,
              clientActions := [], profiles := [] } }).state.view = none :=
  ⟨(view_sent_only_when_changed
      { cookie := "c", error := "",
        state :=
          { errors := [], view := ⟨"v", 1⟩, config := none,
            clientActions := [], profiles := [] } }).2 (by decide),
   (view_sent_only_when_changed
      { cookie := "c", error := "",
        state :=
          { errors := [], view := ⟨"v", 0⟩, config := none,
            clientActions := [], profiles := [] } }).1.mpr rfl⟩

end Margo
